import Mathlib

/-!
Verification development for the secure chunked file-transfer pipeline
(server of the IIT_Hackthon repository).

The server code (`src/server/lib/encryption.js`, the compression module,
`src/server/db/database.js` with its download routes, and
`src/server/routes/upload.js`) is embedded shallowly: buffers are lists of
byte values (`List Nat`, each `< 256` where it matters), the JSON database
and the uploads directory are explicit state, and each Express route
becomes a pure function from state and request inputs to a result and a
new state.  External Node primitives (zlib, AES-256-GCM from crypto, SHA-256,
bcrypt) are not part of the repository; they are modelled by executable
functions that satisfy exactly the contracts the spec states for them.
-/

namespace SecureTransfer

/-- Byte buffers, as in Node `Buffer`: a list of byte values. -/
abbrev Bytes := List Nat

/-! ## Compression module (the compression library of the repository)

Mirrors `Algorithm`, `compressGzip`/`decompressGzip`,
`compressBrotli`/`decompressBrotli`, the ratio accounting of `compressFile` and
`selectAlgorithm`.  zlib itself is external; its codecs are modelled as
header-tagged invertible encodings: a gzip stream starts with the magic
bytes 31,139 (as real gzip does) and gunzip rejects input that does not,
which is exactly the loud incorrect-header-check failure of zlib. -/

inductive Algorithm
  | gzip
  | brotli
deriving DecidableEq, Repr

/-- Modelled from the spec: zlib gzip at a given level — an invertible
encoding prefixed by the gzip magic bytes and the level byte. -/
def compressGzip (level : Nat) (data : Bytes) : Bytes :=
  31 :: 139 :: level :: data

/-- Modelled from the spec: zlib gunzip — decodes only streams carrying
the gzip magic header, and fails loudly otherwise. -/
def decompressGzip (c : Bytes) : Option Bytes :=
  match c with
  | a :: b :: _ :: rest => if a = 31 ∧ b = 139 then some rest else none
  | _ => none

/-- Modelled from the spec: Brotli compression at a given quality — an
invertible encoding with a marker distinct from the gzip magic. -/
def compressBrotli (level : Nat) (data : Bytes) : Bytes :=
  206 :: 177 :: level :: data

/-- Modelled from the spec: Brotli decompression, algorithm-specific. -/
def decompressBrotli (c : Bytes) : Option Bytes :=
  match c with
  | a :: b :: _ :: rest => if a = 206 ∧ b = 177 then some rest else none
  | _ => none

/-- The algorithm dispatch of `compressFile`: Brotli when asked for, gzip
otherwise (`algorithm === Algorithm.BROTLI ? ... : ...`). -/
def compressData (alg : Algorithm) (level : Nat) (data : Bytes) : Bytes :=
  match alg with
  | .brotli => compressBrotli level data
  | .gzip => compressGzip level data

/-- The algorithm dispatch of `decompressFile`. -/
def decompressData (alg : Algorithm) (c : Bytes) : Option Bytes :=
  match alg with
  | .brotli => decompressBrotli c
  | .gzip => decompressGzip c

/-- Byte-level check that `needle` starts `hay` (JS `String.startsWith`
on character lists, used to build the `includes` model). -/
def leadsWith : List Char → List Char → Bool
  | [], _ => true
  | _ :: _, [] => false
  | a :: as, b :: bs => a == b && leadsWith as bs

/-- JS `hay.includes(needle)`: `needle` occurs contiguously in `hay`. -/
def strIncludes (hay needle : String) : Bool :=
  go needle.toList hay.toList
where
  go (n : List Char) (h : List Char) : Bool :=
    leadsWith n h || match h with
      | [] => false
      | _ :: t => go n t

/-- The `textTypes` list of `selectAlgorithm`. -/
def textTypes : List String :=
  ["text/", "application/json", "application/javascript",
   "application/xml", "application/xhtml", "image/svg"]

/-- Route helper `selectAlgorithm(mimeType)`: Brotli for text-like MIME types, gzip
for everything else. -/
def selectAlgorithm (mimeType : String) : Algorithm :=
  if textTypes.any (fun t => mimeType ≠ "" && strIncludes mimeType t)
  then Algorithm.brotli else Algorithm.gzip

/-! ## Encryption module (`src/server/lib/encryption.js`)

AES-256-GCM, SHA-256 and bcrypt are Node `crypto` primitives, external to
the repository.  They are modelled executably at the contract level the
spec gives them:

* encryption is a length-preserving keystream transform (GCM is a counter
  mode: ciphertext length equals plaintext length, the tag is separate);
* the ciphertext value produced by `encrypt` records the key and IV under
  which it was made, modelling the AEAD guarantee that decryption under
  any other key, IV or tag fails authentication and returns nothing
  (fail-closed, never partial bytes);
* the auth tag binds key, IV and ciphertext;
* the checksum is a content digest of the ciphertext bytes, distinct from
  the tag. -/

abbrev Key := Bytes
abbrev IV := Bytes

/-- The keystream offset derived from key and IV bytes. -/
def ksOff (k : Key) (iv : IV) : Nat :=
  (k.sum + iv.sum) % 256

/-- Modelled from the spec: one keystream step of the AEAD cipher. -/
def encByte (k : Key) (iv : IV) (b : Nat) : Nat :=
  (b + ksOff k iv) % 256

/-- Inverse keystream step. -/
def decByte (k : Key) (iv : IV) (b : Nat) : Nat :=
  (b + (256 - ksOff k iv)) % 256

/-- Modelled from the spec: SHA-256 content digest (`generateChecksum`),
an executable digest of the byte content. -/
def checksumFn (data : Bytes) : Nat :=
  data.foldl (fun acc b => acc * 256 + b + 1) 1

/-- Modelled from the spec: the GCM auth tag, binding key, IV and
ciphertext bytes into one verification value. -/
def authTagFn (k : Key) (iv : IV) (c : Bytes) : Nat :=
  checksumFn (k ++ iv ++ c)

/-- A ciphertext artifact as stored on disk.  `data` are the ciphertext
bytes (same length as the plaintext, as in GCM).  `key` and `iv` record
the parameters the blob was produced under — the model of the AEAD
binding that makes decryption under anything else fail authentication. -/
structure EncBlob where
  data : Bytes
  key : Key
  iv : IV
deriving DecidableEq, Repr

/-- Function `encrypt(data, key, iv)` of `encryption.js`: returns the ciphertext
and the auth tag. -/
def encrypt (data : Bytes) (k : Key) (iv : IV) : EncBlob × Nat :=
  let c := data.map (encByte k iv)
  (⟨c, k, iv⟩, authTagFn k iv c)

/-- Function `decrypt(encryptedData, key, iv, authTag)`: fails closed (returns
`none`, the model of the thrown error) unless key, IV and tag all match
the parameters the blob was encrypted under. -/
def decrypt (blob : EncBlob) (k : Key) (iv : IV) (tag : Nat) : Option Bytes :=
  if blob.key = k ∧ blob.iv = iv ∧ tag = authTagFn k iv blob.data
  then some (blob.data.map (decByte k iv))
  else none

/-- Modelled from the spec: bcrypt as an injective one-way hash; the
comparison primitive is equality with the stored hash. -/
def bcryptHashM (p : String) : String :=
  "bc$" ++ p

/-- Keystream round trip on a byte value. -/
theorem decByte_encByte (k : Key) (iv : IV) (b : Nat) (hb : b < 256) :
    decByte k iv (encByte k iv b) = b := by
  unfold decByte encByte
  have hk : ksOff k iv < 256 := Nat.mod_lt _ (by norm_num)
  rw [Nat.mod_add_mod]
  have : b + ksOff k iv + (256 - ksOff k iv) = b + 256 := by omega
  rw [this]
  omega

/-- Keystream round trip on a buffer of bytes. -/
theorem map_decByte_encByte (k : Key) (iv : IV) (l : Bytes)
    (hl : ∀ b ∈ l, b < 256) :
    (l.map (encByte k iv)).map (decByte k iv) = l := by
  induction l with
  | nil => rfl
  | cons a t ih =>
    simp only [List.map_cons, List.cons.injEq]
    exact ⟨decByte_encByte k iv a (hl a (by simp)),
           ih (fun b hb => hl b (by simp [hb]))⟩

/-! ## Data model (`src/server/db/database.js`)

`data.json` holds `transfers` and `logs`; the `uploads` directory holds
one ciphertext blob per transfer, named `<id>.enc`.  All three are
modelled as one explicit `ServerState`. -/

/-- Transfer status.  `transferDb.create` sets `active`; the lazy
expiry checks set `expired`; deletion removes the record entirely. -/
inductive Status
  | active
  | expired
deriving DecidableEq, Repr

/-- A transfer record as created by `transferDb.create` in
`POST /api/upload`. -/
structure Transfer where
  id : String
  filename : String
  original_filename : String
  original_size : Nat
  compressed_size : Nat
  compression_ratio : ℚ
  encryption_iv : IV
  encryption_salt : Bytes
  password_hash : Option String
  mime_type : String
  expires_at : Option Nat
  max_downloads : Option Nat
  checksum : Nat
  created_at : Nat
  download_count : Nat
  status : Status
deriving Repr

/-- A transfer log entry (`logDb.create`); only the fields the claims
touch are kept. -/
structure LogEntry where
  transfer_id : String
  action : String
deriving DecidableEq, Repr

/-- The persistent state of the server: the JSON database plus the uploads
directory (filename to stored blob; `find?` sees the newest write
first, matching file overwrite). -/
structure ServerState where
  transfers : List Transfer
  logs : List LogEntry
  files : List (String × EncBlob)

/-- The empty server state (fresh `data.json`, empty uploads dir). -/
def initState : ServerState :=
  ⟨[], [], []⟩

/-- Operation `transferDb.getById`: `db.transfers.find(t => t.id === id)`. -/
def getById (st : ServerState) (id : String) : Option Transfer :=
  st.transfers.find? (fun t => t.id == id)

/-- The pattern `db.transfers.find(...)` followed by mutating the found record:
updates the first transfer with the given id. -/
def updateFirstT (ts : List Transfer) (id : String) (f : Transfer → Transfer) :
    List Transfer :=
  match ts with
  | [] => []
  | t :: rest =>
    if t.id == id then f t :: rest else t :: updateFirstT rest id f

/-- Operation `transferDb.updateDownloadCount`: increments `download_count` of the
found record. -/
def bumpCount (t : Transfer) : Transfer :=
  { t with download_count := t.download_count + 1 }

def updateDownloadCount (st : ServerState) (id : String) : ServerState :=
  { st with transfers := updateFirstT st.transfers id bumpCount }

def setStatus (s : Status) (t : Transfer) : Transfer :=
  { t with status := s }

/-- Operation `transferDb.updateStatus`. -/
def updateStatus (st : ServerState) (id : String) (s : Status) : ServerState :=
  { st with transfers := updateFirstT st.transfers id (setStatus s) }

/-- Operation `logDb.create` (fields beyond id and action dropped). -/
def addLog (st : ServerState) (id action : String) : ServerState :=
  { st with logs := st.logs ++ [⟨id, action⟩] }

/-- JS truthiness-guarded expiry test:
`transfer.expires_at && new Date(transfer.expires_at) < new Date()`. -/
def expiredNow (t : Transfer) (now : Nat) : Bool :=
  match t.expires_at with
  | some e => decide (e < now)
  | none => false

/-- JS truthiness-guarded quota test:
`transfer.max_downloads && transfer.download_count >= transfer.max_downloads`.
Note `max_downloads === 0` is falsy, so a zero ceiling disables the check. -/
def quotaHitN (maxDl : Option Nat) (count : Nat) : Bool :=
  match maxDl with
  | some m => decide (0 < m) && decide (m ≤ count)
  | none => false

def quotaHit (t : Transfer) : Bool :=
  quotaHitN t.max_downloads t.download_count

/-- Model of JS `parseInt` on the canonical decimal request strings
(`parseInt("0") = 0`, `parseInt("7") = 7`); a non-numeric string gives
`NaN`, which is falsy wherever the record field is consulted, so it is
folded into `none`. -/
def jsParseInt (s : String) : Option Nat :=
  if s.toList ≠ [] ∧ s.toList.all Char.isDigit then
    some (s.toList.foldl (fun n c => n * 10 + (c.toNat - 48)) 0)
  else none

/-! ## Error kinds of the download and upload routes -/

/-- The distinguishable error responses of the routes in
the download router of `database.js`. -/
inductive DlError
  | notFound
  | inactive (s : Status)
  | expired
  | quotaExhausted
  | passwordRequired
  | invalidPassword
  | keyRequired
  | fileMissing
  | integrityFailure
  | decryptionFailure
  | decompressionFailure
deriving DecidableEq, Repr

/-- Pipeline stages of `POST /api/download/:id`, recorded in order to
state the temporal claims (what ran before what). -/
inductive Stage
  | readS
  | checksumS
  | decryptS
  | decompressS
  | incrementS
deriving DecidableEq, Repr

/-- Outcome of a download request: the HTTP result, the post-state, and
the trace of pipeline stages that ran. -/
structure DlOutcome where
  result : Except DlError Bytes
  state : ServerState
  stages : List Stage

/-! ## `POST /api/upload` — the store operation -/

/-- What `POST /api/upload` returns to the requester: the transfer id,
the decryption key and auth tag (returned exactly once), and the
compression figures reported in the response body. -/
structure StoreResult where
  transferId : String
  decryptionKey : Key
  authTag : Nat
  reportedRatio : ℚ
  reportedCompressedSize : Nat

/-- Route `POST /api/upload`: compress (algorithm from the MIME type), encrypt,
checksum, persist record and blob, log.  The random material
(`transferId`, `fileKey`, `iv`, `salt`) produced by the generators is
passed in as parameters. -/
def store (st : ServerState) (now : Nat) (transferId : String)
    (fileData : Bytes) (originalFilename mimeType : String)
    (compressionLevel : Nat) (password : Option String)
    (expiresIn : Option Nat) (maxDownloads : Option String)
    (fileKey : Key) (iv : IV) (salt : Bytes) :
    StoreResult × ServerState :=
  let originalSize := fileData.length
  let algorithm := selectAlgorithm mimeType
  let compressed := compressData algorithm compressionLevel fileData
  -- the stats of compressFile: ratio from the compressed (pre-encryption) size
  let ratio : ℚ := (compressed.length : ℚ) * 100 / (originalSize : ℚ)
  let ea := encrypt compressed fileKey iv
  let blob := ea.1
  let checksum := checksumFn blob.data
  let password_hash := password.map bcryptHashM
  let expires_at := expiresIn.map (fun h => now + h)
  let max_dl : Option Nat :=
    match maxDownloads with
    | some s => if s ≠ "" then jsParseInt s else none
    | none => none
  let t : Transfer :=
    { id := transferId
      filename := transferId ++ ".enc"
      original_filename := originalFilename
      original_size := originalSize
      compressed_size := blob.data.length
      compression_ratio := ratio
      encryption_iv := iv
      encryption_salt := salt
      password_hash := password_hash
      mime_type := mimeType
      expires_at := expires_at
      max_downloads := max_dl
      checksum := checksum
      created_at := now
      download_count := 0
      status := Status.active }
  (⟨transferId, fileKey, ea.2, ratio, blob.data.length⟩,
   addLog
     { st with
       transfers := st.transfers ++ [t]
       files := (transferId ++ ".enc", blob) :: st.files }
     transferId ("upload"))

/-! ## `GET /api/download/:id/info` — getMetadata -/

/-- The metadata view returned by the info route (claims-relevant
fields). -/
structure MetadataView where
  id : String
  hasPassword : Bool
  downloadCount : Nat
  maxDownloads : Option Nat
deriving DecidableEq, Repr

/-- Route `GET /api/download/:id/info`: not-found, lazy expiry (with the
status side effect), quota gate, then the metadata; no password and no
status gate. -/
def getMetadata (st : ServerState) (now : Nat) (id : String) :
    Except DlError MetadataView × ServerState :=
  match getById st id with
  | none => (.error .notFound, st)
  | some t =>
    if expiredNow t now then
      (.error .expired, updateStatus st id Status.expired)
    else if quotaHit t then
      (.error .quotaExhausted, st)
    else
      (.ok ⟨t.id, t.password_hash.isSome, t.download_count, t.max_downloads⟩, st)

/-! ## `POST /api/download/:id` — the retrieve pipeline -/

/-- The tail of the download route after the access gates: key/tag
presence, file read, checksum verification, decrypt, decompress (always
gzip, as in the source), count increment and logging. -/
def retrieveAfterAuth (st : ServerState) (id : String) (t : Transfer)
    (decryptionKey : Option Key) (authTag : Option Nat) : DlOutcome :=
  match decryptionKey, authTag with
  | some k, some a =>
    (match st.files.find? (fun f => f.1 == t.filename) with
     | none => ⟨.error .fileMissing, st, []⟩
     | some fb =>
       if checksumFn fb.2.data ≠ t.checksum then
         ⟨.error .integrityFailure, st, [.readS, .checksumS]⟩
       else
         match decrypt fb.2 k t.encryption_iv a with
         | none => ⟨.error .decryptionFailure, st, [.readS, .checksumS, .decryptS]⟩
         | some plain =>
           match decompressGzip plain with
           | none =>
             ⟨.error .decompressionFailure, st,
              [.readS, .checksumS, .decryptS, .decompressS]⟩
           | some out =>
             ⟨.ok out,
              addLog (updateDownloadCount st id) id ("download"),
              [.readS, .checksumS, .decryptS, .decompressS, .incrementS]⟩)
  | _, _ => ⟨.error .keyRequired, st, []⟩

/-- Route `POST /api/download/:id`: not-found, status gate, lazy expiry, quota
gate, password gate, then the verification pipeline. -/
def retrieve (st : ServerState) (now : Nat) (id : String)
    (password : Option String) (decryptionKey : Option Key)
    (authTag : Option Nat) : DlOutcome :=
  match getById st id with
  | none => ⟨.error .notFound, st, []⟩
  | some t =>
    if t.status ≠ Status.active then ⟨.error (.inactive t.status), st, []⟩
    else if expiredNow t now then
      ⟨.error .expired, updateStatus st id Status.expired, []⟩
    else if quotaHit t then ⟨.error .quotaExhausted, st, []⟩
    else
      match t.password_hash with
      | some ph =>
        match password with
        | none => ⟨.error .passwordRequired, st, []⟩
        | some p =>
          if bcryptHashM p ≠ ph then
            ⟨.error .invalidPassword, addLog st id ("download_failed"), []⟩
          else retrieveAfterAuth st id t decryptionKey authTag
      | none => retrieveAfterAuth st id t decryptionKey authTag

/-! ## `GET /api/download/:id/stream` -/

/-- Route `GET /api/download/:id/stream`: not-found-or-inactive, lazy expiry,
file lookup, then the raw stored ciphertext with the IV header — no
password gate, no quota gate, no checksum verification, no count
increment. -/
def streamRetrieve (st : ServerState) (now : Nat) (id : String) :
    Except DlError (EncBlob × IV) × ServerState :=
  match getById st id with
  | none => (.error .notFound, st)
  | some t =>
    if t.status ≠ Status.active then (.error .notFound, st)
    else if expiredNow t now then
      (.error .expired, updateStatus st id Status.expired)
    else
      match st.files.find? (fun f => f.1 == t.filename) with
      | none => (.error .fileMissing, st)
      | some fb => (.ok (fb.2, t.encryption_iv), st)

/-! ## `POST /api/upload/chunk` — the chunk assembler

The chunks directory for one transfer id maps chunk index to bytes
(`chunk-<i>` files).  `fs.renameSync` overwrites, so saving keeps at
most one entry per index; the merge loop reads `chunk-0 ..
chunk-(total-1)` in index order, concatenating. -/

/-- The per-transfer chunk directory: one entry per chunk index. -/
abbrev ChunkStore := List (Nat × Bytes)

/-- Saving `chunk-<i>` (`fs.renameSync` overwrites an existing file of
the same name). -/
def saveChunk (cs : ChunkStore) (i : Nat) (b : Bytes) : ChunkStore :=
  (i, b) :: cs.filter (fun p => p.1 ≠ i)

/-- Reading `chunk-<i>` from the directory. -/
def chunkLookup (cs : ChunkStore) (i : Nat) : Option Bytes :=
  (cs.find? (fun p => p.1 == i)).map Prod.snd

/-- Feeding a whole arrival sequence of `(index, bytes)` chunks into an
empty chunk directory, in arrival order. -/
def acceptChunks (arrivals : List (Nat × Bytes)) : ChunkStore :=
  arrivals.foldl (fun cs p => saveChunk cs p.1 p.2) []

/-- The merge loop: `for (let i = 0; i < totalChunks; i++)` read
`chunk-<i>` and append (`readFileSync` throws when a chunk is missing:
`none`). -/
def mergeChunks (cs : ChunkStore) (total : Nat) : Option Bytes :=
  (List.range total).foldl
    (fun acc i => acc.bind (fun bs => (chunkLookup cs i).map (fun c => bs ++ c)))
    (some [])

/-! ## The quota check-then-increment under concurrency

`POST /api/download/:id` runs synchronously from the quota check through
`decrypt`, then suspends at `await compression.decompressGzip(...)`, and
only after resuming calls `transferDb.updateDownloadCount`.  Two
concurrent requests for the same id therefore interleave as two atomic
segments each: segment one runs the gates (and fails with
`QuotaExhausted` when the quota test fires), segment two increments the
counter and responds with success.  There is no per-id lock and no
compare-and-increment. -/

/-- The shared and per-request state of two concurrent download
requests against one transfer: its counter, each request's program
counter (0 = gates not yet run, 1 = suspended at the decompress await,
2 = finished) and each request's outcome. -/
structure RaceState where
  count : Nat
  pcA : Nat
  pcB : Nat
  resA : Option Bool
  resB : Option Bool
deriving DecidableEq, Repr

def raceInit : RaceState :=
  ⟨0, 0, 0, none, none⟩

/-- One scheduler step: run the next atomic segment of request A
(`which = true`) or B.  Segment boundaries are the `await` points of the
handler; the quota gate is the same `quotaHitN` test the route runs. -/
def raceStep (maxDl : Option Nat) (s : RaceState) (which : Bool) : RaceState :=
  if which then
    match s.pcA with
    | 0 =>
      if quotaHitN maxDl s.count then { s with pcA := 2, resA := some false }
      else { s with pcA := 1 }
    | 1 => { s with pcA := 2, resA := some true, count := s.count + 1 }
    | _ => s
  else
    match s.pcB with
    | 0 =>
      if quotaHitN maxDl s.count then { s with pcB := 2, resB := some false }
      else { s with pcB := 1 }
    | 1 => { s with pcB := 2, resB := some true, count := s.count + 1 }
    | _ => s

/-- Run a schedule (a list of which-request-steps-next choices). -/
def runRace (maxDl : Option Nat) (schedule : List Bool) : RaceState :=
  schedule.foldl (raceStep maxDl) raceInit

/-! ## General lemmas about the embedding -/

instance : DecidableEq (Except DlError Bytes) :=
  fun a b =>
    match a, b with
    | .ok x, .ok y =>
      if h : x = y then .isTrue (by rw [h]) else .isFalse (by simp [h])
    | .error x, .error y =>
      if h : x = y then .isTrue (by rw [h]) else .isFalse (by simp [h])
    | .ok _, .error _ => .isFalse (by simp)
    | .error _, .ok _ => .isFalse (by simp)

/-- gunzip inverts gzip at every level. -/
theorem decompressGzip_compressGzip (level : Nat) (d : Bytes) :
    decompressGzip (compressGzip level d) = some d := by
  simp [decompressGzip, compressGzip]

/-- Brotli decoding inverts Brotli encoding at every level. -/
theorem decompressBrotli_compressBrotli (level : Nat) (d : Bytes) :
    decompressBrotli (compressBrotli level d) = some d := by
  simp [decompressBrotli, compressBrotli]

/-- gunzip rejects a Brotli stream: the algorithm mismatch fails loudly
(the incorrect-header-check error of zlib), even after an encrypt/decrypt
round trip of the stream. -/
theorem decompressGzip_of_brotli_roundtrip (k : Key) (iv : IV)
    (level : Nat) (d : Bytes) :
    decompressGzip (((compressBrotli level d).map (encByte k iv)).map (decByte k iv))
      = none := by
  simp only [compressBrotli, List.map_cons]
  rw [decByte_encByte k iv 206 (by norm_num)]
  simp [decompressGzip]

/-- Every byte of a compressed stream is a byte (`< 256`) when the input
bytes and the level are. -/
theorem compressData_bytes_lt (alg : Algorithm) (level : Nat) (B : Bytes)
    (hB : ∀ b ∈ B, b < 256) (hlevel : level < 256) :
    ∀ b ∈ compressData alg level B, b < 256 := by
  intro b hb
  cases alg <;>
    simp only [compressData, compressGzip, compressBrotli, List.mem_cons] at hb <;>
    rcases hb with rfl | rfl | rfl | h <;> first
      | omega
      | exact hB b h

/-- Updating the first record with a given id, through an id-preserving
update, is what a later `getById` sees. -/
theorem find?_updateFirstT (ts : List Transfer) (id : String)
    (f : Transfer → Transfer) (hf : ∀ t, (f t).id = t.id) :
    (updateFirstT ts id f).find? (fun t => t.id == id)
      = (ts.find? (fun t => t.id == id)).map f := by
  induction ts with
  | nil => rfl
  | cons a rest ih =>
    by_cases h : (a.id == id) = true
    · simp [updateFirstT, h, List.find?_cons, hf a]
    · simp [updateFirstT, h, List.find?_cons, ih]

/-- Reading `getById` after the lazy `updateStatus`. -/
theorem getById_updateStatus (st : ServerState) (id : String) (s : Status) :
    getById (updateStatus st id s) id = (getById st id).map (setStatus s) := by
  unfold getById updateStatus
  exact find?_updateFirstT st.transfers id (setStatus s) (fun t => rfl)

/-! # The claims -/

/-- C2: for every byte sequence B, every supported compression algorithm
and level 1–9, and every key/IV, decompressing (with the matching
algorithm) the decryption (with the same key, IV and the authTag
returned by encrypt) of the encryption of the compression of B yields
exactly B. -/
theorem C2_round_trip (B : Bytes) (alg : Algorithm) (level : Nat)
    (k : Key) (iv : IV) (hB : ∀ b ∈ B, b < 256)
    (hl1 : 1 ≤ level) (hl9 : level ≤ 9) :
    ((decrypt (encrypt (compressData alg level B) k iv).1 k iv
        (encrypt (compressData alg level B) k iv).2).bind
      (decompressData alg)) = some B := by
  have hc : ∀ b ∈ compressData alg level B, b < 256 :=
    compressData_bytes_lt alg level B hB (by omega)
  simp only [encrypt, decrypt, and_self, true_and, if_true,
    Option.some_bind]
  rw [map_decByte_encByte k iv _ hc]
  cases alg
  · exact decompressGzip_compressGzip level B
  · exact decompressBrotli_compressBrotli level B

/-- Witness for C2 at a concrete input. -/
theorem C2_round_trip_witness :
    (∀ b ∈ ([7, 255] : Bytes), b < 256) ∧
    ((decrypt (encrypt (compressData Algorithm.brotli 9 [7, 255]) [3, 4] [5]).1
        [3, 4] [5]
        (encrypt (compressData Algorithm.brotli 9 [7, 255]) [3, 4] [5]).2).bind
      (decompressData Algorithm.brotli)) = some [7, 255] :=
  ⟨by decide,
   C2_round_trip [7, 255] Algorithm.brotli 9 [3, 4] [5] (by decide)
     (by decide) (by decide)⟩

/-- C1 (code bug): the claim says retrieval decompresses with the same
algorithm selected at store time.  The code does not: `selectAlgorithm`
picks Brotli for text-like MIME types and the upload compresses with it,
but `POST /api/download/:id` always calls `compression.decompressGzip`,
and no algorithm is recorded in the transfer record.  Hence every
transfer stored from a text-like MIME type fails at the decompression
stage even with the correct key and auth tag, instead of returning the
file. -/
theorem C1_brotli_transfer_never_decompresses (now : Nat) (tid : String)
    (fileData : Bytes) (fname mime : String) (level : Nat) (key : Key)
    (iv : IV) (salt : Bytes)
    (hmime : selectAlgorithm mime = Algorithm.brotli) :
    (retrieve (store initState now tid fileData fname mime level
        none none none key iv salt).2 now tid none (some key)
      (some (store initState now tid fileData fname mime level
        none none none key iv salt).1.authTag)).result
      = .error .decompressionFailure := by
  simp only [store, initState, addLog, encrypt, hmime, compressData,
    Option.map_none]
  simp only [retrieve, getById, List.nil_append, List.find?_cons,
    beq_self_eq_true]
  simp [expiredNow, quotaHit, quotaHitN, retrieveAfterAuth, decrypt]
  rw [← List.map_map, decompressGzip_of_brotli_roundtrip]

/-- Witness for C1: a `text/plain` upload, retrieved with the exact key
and auth tag the store returned, still fails at decompression. -/
theorem C1_brotli_transfer_never_decompresses_witness :
    selectAlgorithm ("text/plain") = Algorithm.brotli ∧
    (retrieve (store initState 0 "t1" [104, 105] "a.txt" "text/plain" 6
        none none none [1] [2] []).2 0 "t1" none (some [1])
      (some (store initState 0 "t1" [104, 105] "a.txt" "text/plain" 6
        none none none [1] [2] []).1.authTag)).result
      = .error .decompressionFailure :=
  ⟨by decide,
   C1_brotli_transfer_never_decompresses 0 "t1" [104, 105] "a.txt"
     "text/plain" 6 [1] [2] [] (by decide)⟩

/-- C8: the persisted `compressed_size` equals the ciphertext length,
and the compression ratio persisted and reported to the requester —
computed by `compressFile` from the pre-encryption compressed size —
equals the post-cipher size relative to the original size, because the
cipher is length-preserving (GCM): ciphertext length = compressed
length. -/
theorem C8_compressed_size_is_ciphertext_length (now : Nat) (tid : String)
    (fileData : Bytes) (fname mime : String) (level : Nat)
    (pw : Option String) (expin : Option Nat) (maxdl : Option String)
    (key : Key) (iv : IV) (salt : Bytes) :
    ∃ t blob,
      (store initState now tid fileData fname mime level pw expin maxdl
        key iv salt).2.transfers = [t] ∧
      (store initState now tid fileData fname mime level pw expin maxdl
        key iv salt).2.files = [(tid ++ ".enc", blob)] ∧
      t.compressed_size = blob.data.length ∧
      t.compression_ratio
        = (blob.data.length : ℚ) * 100 / (fileData.length : ℚ) ∧
      (store initState now tid fileData fname mime level pw expin maxdl
        key iv salt).1.reportedRatio = t.compression_ratio ∧
      (store initState now tid fileData fname mime level pw expin maxdl
        key iv salt).1.reportedCompressedSize = blob.data.length := by
  refine ⟨_, _, rfl, rfl, rfl, ?_, rfl, rfl⟩
  simp [store, encrypt, List.length_map]

/-- C7: for a transfer stored with a password, a retrieve request that
supplies the correct password but a wrong decryption key or auth tag
fails with `DecryptionFailure`; the password gate is independent of and
insufficient for decryption, and no plaintext is returned. -/
theorem C7_password_insufficient_for_decryption (now : Nat) (tid : String)
    (fileData : Bytes) (fname mime : String) (level : Nat) (p : String)
    (key : Key) (iv : IV) (salt : Bytes) (kk : Key) (aa : Nat)
    (hwrong : kk ≠ key ∨ aa ≠ (store initState now tid fileData fname mime
      level (some p) none none key iv salt).1.authTag) :
    (retrieve (store initState now tid fileData fname mime level
        (some p) none none key iv salt).2 now tid (some p) (some kk)
      (some aa)).result = .error .decryptionFailure := by
  simp only [store, initState, addLog, encrypt] at hwrong ⊢
  simp only [retrieve, getById, List.nil_append, List.find?_cons,
    beq_self_eq_true]
  have hd : decrypt
      ⟨(compressData (selectAlgorithm mime) level fileData).map (encByte key iv),
       key, iv⟩ kk iv aa = none := by
    unfold decrypt
    rw [if_neg]
    rintro ⟨h1, h2, h3⟩
    rcases hwrong with h | h
    · exact h h1.symm
    · rw [← h1] at h3
      exact h h3
  simp [expiredNow, quotaHit, quotaHitN, retrieveAfterAuth, hd]

/-- Witness for C7: correct password `"pw"`, the original auth tag, but
the wrong key `[9]` instead of `[1]` — decryption fails. -/
theorem C7_password_insufficient_for_decryption_witness :
    ([9] : Key) ≠ [1] ∧
    (retrieve (store initState 0 "t1" [5] "a.bin" "application/pdf" 6
        (some ("pw")) none none [1] [2] []).2 0 "t1" (some ("pw")) (some [9])
      (some (store initState 0 "t1" [5] "a.bin" "application/pdf" 6
        (some ("pw")) none none [1] [2] []).1.authTag)).result
      = .error .decryptionFailure :=
  ⟨by decide,
   C7_password_insufficient_for_decryption 0 "t1" [5] "a.bin"
     "application/pdf" 6 "pw" [1] [2] [] [9] _ (Or.inl (by decide))⟩

/-- C4: a transfer whose `expiresAt` lies in the past is rejected with
the `Expired` error by both `getMetadata` and `retrieve`; as a side
effect of that read the status of the record transitions to `expired` (lazy
expiry), and `downloadCount` is unchanged (the post-state record is
exactly the old record with only its status replaced). -/
theorem C4_lazy_expiry (st : ServerState) (now : Nat) (id : String)
    (t : Transfer) (e : Nat) (pw : Option String) (k : Option Key)
    (a : Option Nat) (hT : getById st id = some t)
    (hE : t.expires_at = some e) (he : e < now)
    (hA : t.status = Status.active) :
    (getMetadata st now id).1 = .error .expired ∧
    getById (getMetadata st now id).2 id = some (setStatus Status.expired t) ∧
    (retrieve st now id pw k a).result = .error .expired ∧
    getById (retrieve st now id pw k a).state id
      = some (setStatus Status.expired t) := by
  have hx : expiredNow t now = true := by simp [expiredNow, hE, he]
  unfold getMetadata retrieve
  rw [hT]
  simp [hx, hA, getById_updateStatus, hT]

def c4T : Transfer :=
  { id := "t1", filename := "t1.enc", original_filename := "a.bin"
    original_size := 4, compressed_size := 7, compression_ratio := 50
    encryption_iv := [2], encryption_salt := [], password_hash := none
    mime_type := "application/pdf", expires_at := some 1
    max_downloads := some 5, checksum := 0, created_at := 0
    download_count := 3, status := Status.active }

def c4St : ServerState :=
  ⟨[c4T], [], []⟩

/-- Witness for C4: an expired transfer (expiry 1, now 5) is rejected by
both reads, the stored status becomes `expired`, and the download count
stays 3. -/
theorem C4_lazy_expiry_witness :
    (getMetadata c4St 5 "t1").1 = .error .expired ∧
    getById (getMetadata c4St 5 "t1").2 ("t1")
      = some (setStatus Status.expired c4T) ∧
    (retrieve c4St 5 "t1" none none none).result = .error .expired ∧
    getById (retrieve c4St 5 "t1" none none none).state ("t1")
      = some (setStatus Status.expired c4T) :=
  C4_lazy_expiry c4St 5 "t1" c4T 1 none none none rfl rfl (by norm_num) rfl

/-- After the access gates, a stored-checksum mismatch stops the
pipeline at the checksum stage: decrypt never runs. -/
theorem afterAuth_checksum_gate (st : ServerState) (id : String)
    (t : Transfer) (k : Option Key) (a : Option Nat)
    (fb : String × EncBlob)
    (hF : st.files.find? (fun f => f.1 == t.filename) = some fb)
    (hMis : checksumFn fb.2.data ≠ t.checksum) :
    Stage.decryptS ∉ (retrieveAfterAuth st id t k a).stages ∧
    (Stage.checksumS ∈ (retrieveAfterAuth st id t k a).stages →
      (retrieveAfterAuth st id t k a).result = .error .integrityFailure) := by
  cases k with
  | none => cases a <;> simp [retrieveAfterAuth]
  | some kv =>
    cases a with
    | none => simp [retrieveAfterAuth]
    | some av =>
      simp only [retrieveAfterAuth, hF]
      rw [if_pos hMis]
      exact ⟨by simp, fun _ => rfl⟩

/-- C5: when the checksum recomputed over the stored ciphertext differs
from the checksum persisted at store time, the decrypt stage is never
reached on any path of the download pipeline, and any run that reached
the checksum stage aborts there with `IntegrityFailure`. -/
theorem C5_checksum_verified_before_decrypt (st : ServerState) (now : Nat)
    (id : String) (pw : Option String) (k : Option Key) (a : Option Nat)
    (t : Transfer) (fb : String × EncBlob)
    (hT : getById st id = some t)
    (hF : st.files.find? (fun f => f.1 == t.filename) = some fb)
    (hMis : checksumFn fb.2.data ≠ t.checksum) :
    Stage.decryptS ∉ (retrieve st now id pw k a).stages ∧
    (Stage.checksumS ∈ (retrieve st now id pw k a).stages →
      (retrieve st now id pw k a).result = .error .integrityFailure) := by
  unfold retrieve
  rw [hT]
  by_cases h1 : t.status = Status.active
  · simp only [h1, ne_eq, not_true_eq_false, if_false, Bool.false_eq_true]
    by_cases h2 : expiredNow t now = true
    · simp [h2]
    · simp only [h2, if_false, Bool.false_eq_true]
      by_cases h3 : quotaHit t = true
      · simp [h3]
      · simp only [h3, if_false, Bool.false_eq_true]
        cases hph : t.password_hash with
        | none => exact afterAuth_checksum_gate st id t k a fb hF hMis
        | some ph =>
          cases pw with
          | none => simp
          | some p =>
            by_cases h4 : bcryptHashM p ≠ ph
            · simp [h4]
            · simp only [h4, if_false]
              exact afterAuth_checksum_gate st id t k a fb hF hMis
  · simp [h1]

def c5T : Transfer :=
  { id := "t1", filename := "t1.enc", original_filename := "a.bin"
    original_size := 4, compressed_size := 2, compression_ratio := 50
    encryption_iv := [0], encryption_salt := [], password_hash := none
    mime_type := "application/pdf", expires_at := none
    max_downloads := none, checksum := 999, created_at := 0
    download_count := 0, status := Status.active }

def c5St : ServerState :=
  ⟨[c5T], [], [("t1.enc", ⟨[1, 2], [0], [0]⟩)]⟩

/-- Witness for C5: a stored blob whose recomputed checksum differs from
the persisted one — decrypt never runs and the run that reaches the
checksum stage reports `IntegrityFailure`. -/
theorem C5_checksum_verified_before_decrypt_witness :
    Stage.decryptS ∉ (retrieve c5St 0 "t1" none (some [7]) (some 3)).stages ∧
    (Stage.checksumS ∈ (retrieve c5St 0 "t1" none (some [7]) (some 3)).stages →
      (retrieve c5St 0 "t1" none (some [7]) (some 3)).result
        = .error .integrityFailure) :=
  C5_checksum_verified_before_decrypt c5St 0 "t1" none (some [7]) (some 3)
    c5T ("t1.enc", ⟨[1, 2], [0], [0]⟩) rfl rfl (by decide)

/-- C10: for an active, unexpired transfer, the stream route returns the
stored ciphertext and leaves the state untouched — it takes no password
parameter at all, and the fields `password_hash`, `max_downloads`,
`download_count` and `checksum` are arbitrary here: the password, quota
and integrity gates of the normal retrieve path are all bypassed, and
`download_count` is not incremented (the post-state is exactly `st`). -/
theorem C10_stream_bypasses_all_gates (st : ServerState) (now : Nat)
    (id : String) (t : Transfer) (fb : String × EncBlob)
    (hT : getById st id = some t) (hA : t.status = Status.active)
    (hE : expiredNow t now = false)
    (hF : st.files.find? (fun f => f.1 == t.filename) = some fb) :
    streamRetrieve st now id = (.ok (fb.2, t.encryption_iv), st) := by
  unfold streamRetrieve
  rw [hT]
  simp [hA, hE, hF]

def c10T : Transfer :=
  { id := "t1", filename := "t1.enc", original_filename := "a.bin"
    original_size := 4, compressed_size := 2, compression_ratio := 50
    encryption_iv := [3], encryption_salt := [], password_hash := some ("h")
    mime_type := "application/pdf", expires_at := none
    max_downloads := some 1, checksum := 999, created_at := 0
    download_count := 5, status := Status.active }

def c10St : ServerState :=
  ⟨[c10T], [], [("t1.enc", ⟨[1, 2], [0], [0]⟩)]⟩

/-- Witness for C10: a transfer with a password set, its quota exhausted
(5 downloads against a ceiling of 1) and a corrupted stored checksum is
still served in full by the stream route, with no state change. -/
theorem C10_stream_bypasses_all_gates_witness :
    streamRetrieve c10St 7 "t1" = (.ok (⟨[1, 2], [0], [0]⟩, [3]), c10St) :=
  C10_stream_bypasses_all_gates c10St 7 "t1" c10T
    ("t1.enc", ⟨[1, 2], [0], [0]⟩) rfl rfl rfl rfl

/-- C9 (code bug): the claim says the check-then-increment of
`downloadCount` is atomic per transfer id.  The handler of
`POST /api/download/:id` suspends at `await compression.decompressGzip`
between the quota check and `transferDb.updateDownloadCount`, and there
is no per-id lock, so the event loop can interleave two requests as
gate, gate, increment, increment: on a `maxDownloads = 1` transfer both
requests pass the gate at count 0 and both succeed, leaving
`downloadCount = 2`. -/
theorem C9_quota_race_two_successes :
    (runRace (some 1) [true, false, true, false]).resA = some true ∧
    (runRace (some 1) [true, false, true, false]).resB = some true ∧
    (runRace (some 1) [true, false, true, false]).count = 2 ∧
    quotaHitN (some 1) (runRace (some 1) [true, false, true, false]).count
      = true := by
  decide

/-! ### C3: the download-quota invariant -/

/-- Invariant: `downloadCount` stays within every nonzero ceiling. -/
def QuotaInv (st : ServerState) : Prop :=
  ∀ t ∈ st.transfers, ∀ m, t.max_downloads = some m → 0 < m →
    t.download_count ≤ m

/-- A member of the updated list is an old member or the image of the
record `find?` locates. -/
theorem mem_updateFirstT {u : Transfer} {ts : List Transfer} {id : String}
    {f : Transfer → Transfer} (hu : u ∈ updateFirstT ts id f) :
    u ∈ ts ∨ ∃ t, ts.find? (fun x => x.id == id) = some t ∧ u = f t := by
  induction ts with
  | nil => simp [updateFirstT] at hu
  | cons a rest ih =>
    by_cases h : (a.id == id) = true
    · rw [updateFirstT, if_pos h] at hu
      rcases List.mem_cons.mp hu with rfl | hm
      · exact Or.inr ⟨a, by simp [List.find?_cons, h], rfl⟩
      · exact Or.inl (List.mem_cons_of_mem a hm)
    · rw [updateFirstT, if_neg h] at hu
      rcases List.mem_cons.mp hu with rfl | hm
      · exact Or.inl (List.mem_cons_self _ _)
      · rcases ih hm with hm' | ⟨t, hf, rfl⟩
        · exact Or.inl (List.mem_cons_of_mem a hm')
        · refine Or.inr ⟨t, ?_, rfl⟩
          simp only [List.find?_cons, h, cond_false]
          exact hf

theorem quotaInv_updateStatus {st : ServerState} (id : String) (s : Status)
    (h : QuotaInv st) : QuotaInv (updateStatus st id s) := by
  intro u hu m hm h0
  rcases mem_updateFirstT hu with hu' | ⟨t, hf, rfl⟩
  · exact h u hu' m hm h0
  · exact h t (List.mem_of_find?_eq_some hf) m hm h0

/-- The increment preserves the invariant when the incremented record
passed the quota gate. -/
theorem quotaInv_bump {st : ServerState} (id : String)
    (h : QuotaInv st)
    (hgate : ∀ t, st.transfers.find? (fun x => x.id == id) = some t →
      quotaHit t = false) :
    QuotaInv (updateDownloadCount st id) := by
  intro u hu m hm h0
  rcases mem_updateFirstT hu with hu' | ⟨t, hf, rfl⟩
  · exact h u hu' m hm h0
  · have hq := hgate t hf
    have hm' : t.max_downloads = some m := hm
    simp only [quotaHit, quotaHitN, hm', Bool.and_eq_false_iff,
      decide_eq_false_iff_not, not_lt, not_le] at hq
    show t.download_count + 1 ≤ m
    rcases hq with h' | h' <;> omega

theorem quotaInv_afterAuth {st : ServerState} (id : String) (t : Transfer)
    (k : Option Key) (a : Option Nat) (h : QuotaInv st)
    (hgate : ∀ t', st.transfers.find? (fun x => x.id == id) = some t' →
      quotaHit t' = false) :
    QuotaInv (retrieveAfterAuth st id t k a).state := by
  cases k with
  | none => cases a <;> simpa [retrieveAfterAuth] using h
  | some kv =>
    cases a with
    | none => simpa [retrieveAfterAuth] using h
    | some av =>
      simp only [retrieveAfterAuth]
      cases hF : st.files.find? (fun f => f.1 == t.filename) with
      | none => simp only [hF]; exact h
      | some fb =>
        simp only [hF]
        by_cases hc : checksumFn fb.2.data ≠ t.checksum
        · rw [if_pos hc]; exact h
        · rw [if_neg hc]
          cases hd : decrypt fb.2 kv t.encryption_iv av with
          | none => simp only [hd]; exact h
          | some plain =>
            simp only [hd]
            cases hg : decompressGzip plain with
            | none => simp only [hg]; exact h
            | some out => simp only [hg]; exact quotaInv_bump id h hgate

theorem quotaInv_retrieve (st : ServerState) (now : Nat) (id : String)
    (pw : Option String) (k : Option Key) (a : Option Nat)
    (h : QuotaInv st) : QuotaInv (retrieve st now id pw k a).state := by
  unfold retrieve
  cases hT : getById st id with
  | none => exact h
  | some t =>
    have hgate1 : quotaHit t = false →
        ∀ t', st.transfers.find? (fun x => x.id == id) = some t' →
          quotaHit t' = false := by
      intro hq t' ht'
      unfold getById at hT
      rw [ht'] at hT
      cases hT
      exact hq
    by_cases h1 : t.status = Status.active
    · simp only [h1, ne_eq, not_true_eq_false, if_false, Bool.false_eq_true]
      by_cases h2 : expiredNow t now = true
      · simp only [h2, if_true]
        exact quotaInv_updateStatus id Status.expired h
      · simp only [h2, if_false, Bool.false_eq_true]
        by_cases h3 : quotaHit t = true
        · simp only [h3, if_true]; exact h
        · simp only [h3, if_false, Bool.false_eq_true]
          have hgate := hgate1 (by simpa using h3)
          cases hph : t.password_hash with
          | none => exact quotaInv_afterAuth id t k a h hgate
          | some ph =>
            cases pw with
            | none => exact h
            | some p =>
              by_cases h4 : bcryptHashM p ≠ ph
              · simp only [h4, if_true]; exact h
              · simp only [h4, if_false]
                exact quotaInv_afterAuth id t k a h hgate
    · simp only [h1, ne_eq, not_false_eq_true, if_true]; exact h

theorem quotaInv_getMetadata (st : ServerState) (now : Nat) (id : String)
    (h : QuotaInv st) : QuotaInv (getMetadata st now id).2 := by
  unfold getMetadata
  cases hT : getById st id with
  | none => exact h
  | some t =>
    by_cases h2 : expiredNow t now = true
    · simp only [h2, if_true]
      exact quotaInv_updateStatus id Status.expired h
    · simp only [h2, if_false, Bool.false_eq_true]
      by_cases h3 : quotaHit t = true
      · simp only [h3, if_true]; exact h
      · simp only [h3, if_false, Bool.false_eq_true]; exact h

theorem quotaInv_stream (st : ServerState) (now : Nat) (id : String)
    (h : QuotaInv st) : QuotaInv (streamRetrieve st now id).2 := by
  unfold streamRetrieve
  cases hT : getById st id with
  | none => exact h
  | some t =>
    by_cases h1 : t.status = Status.active
    · simp only [h1, ne_eq, not_true_eq_false, if_false, Bool.false_eq_true]
      by_cases h2 : expiredNow t now = true
      · simp only [h2, if_true]
        exact quotaInv_updateStatus id Status.expired h
      · simp only [h2, if_false, Bool.false_eq_true]
        cases hF : st.files.find? (fun f => f.1 == t.filename) with
        | none => simp only [hF]; exact h
        | some fb => simp only [hF]; exact h
    · simp only [h1, ne_eq, not_false_eq_true, if_true]; exact h

theorem quotaInv_store (st : ServerState) (now : Nat) (tid : String)
    (fileData : Bytes) (fname mime : String) (level : Nat)
    (pw : Option String) (expin : Option Nat) (maxdl : Option String)
    (key : Key) (iv : IV) (salt : Bytes) (h : QuotaInv st) :
    QuotaInv (store st now tid fileData fname mime level pw expin maxdl
      key iv salt).2 := by
  intro u hu m hm h0
  simp only [store, addLog] at hu
  rcases List.mem_append.mp hu with hu' | hu'
  · exact h u hu' m hm h0
  · rw [List.mem_singleton.mp hu']
    exact Nat.zero_le m

/-- An active, unexpired transfer with a nonzero ceiling and exhausted
counter is rejected with `QuotaExhausted` by both reads. -/
theorem quota_rejection (st : ServerState) (now : Nat) (id : String)
    (pw : Option String) (k : Option Key) (a : Option Nat) (t : Transfer)
    (m : Nat) (hT : getById st id = some t) (hA : t.status = Status.active)
    (hE : expiredNow t now = false) (hm : t.max_downloads = some m)
    (h0 : 0 < m) (hcnt : m ≤ t.download_count) :
    (retrieve st now id pw k a).result = .error .quotaExhausted ∧
    (getMetadata st now id).1 = .error .quotaExhausted := by
  have hq : quotaHit t = true := by
    simp [quotaHit, quotaHitN, hm, h0, hcnt]
  unfold retrieve getMetadata
  rw [hT]
  simp [hA, hE, hq]

/-- C3 (amended: the ceiling must be nonzero — see the counterexample):
for every transfer whose `maxDownloads` is set to a nonzero value,
`downloadCount` never exceeds `maxDownloads`: retrieve and getMetadata
reject with `QuotaExhausted` once the counter reaches the ceiling, the
counter is incremented only after that check passed, and the invariant
`downloadCount ≤ maxDownloads` is preserved by every sequential
operation (retrieve, getMetadata, stream retrieval, store). -/
theorem C3_quota_invariant_nonzero (st : ServerState) (now : Nat)
    (id : String) (pw : Option String) (k : Option Key) (a : Option Nat)
    (tid : String) (fileData : Bytes) (fname mime : String) (level : Nat)
    (pw2 : Option String) (expin : Option Nat) (maxdl : Option String)
    (key : Key) (iv : IV) (salt : Bytes) (hInv : QuotaInv st) :
    QuotaInv (retrieve st now id pw k a).state ∧
    QuotaInv (getMetadata st now id).2 ∧
    QuotaInv (streamRetrieve st now id).2 ∧
    QuotaInv (store st now tid fileData fname mime level pw2 expin maxdl
      key iv salt).2 ∧
    (∀ t m, getById st id = some t → t.status = Status.active →
      expiredNow t now = false → t.max_downloads = some m → 0 < m →
      m ≤ t.download_count →
      (retrieve st now id pw k a).result = .error .quotaExhausted ∧
      (getMetadata st now id).1 = .error .quotaExhausted) :=
  ⟨quotaInv_retrieve st now id pw k a hInv,
   quotaInv_getMetadata st now id hInv,
   quotaInv_stream st now id hInv,
   quotaInv_store st now tid fileData fname mime level pw2 expin maxdl
     key iv salt hInv,
   fun t m hT hA hE hm h0 hcnt =>
     quota_rejection st now id pw k a t m hT hA hE hm h0 hcnt⟩

/-- Counterexample to C3 as stated: a transfer created with
`maxDownloads = "0"` stores the ceiling `0` — which is set — but the JS
quota check `transfer.max_downloads && ...` treats `0` as falsy and is
skipped, so a retrieve succeeds and leaves `downloadCount = 1 > 0 =
maxDownloads`. -/
theorem C3_maxDownloads_zero_counterexample :
    (retrieve (store initState 0 "t1" [5] "a.bin" "application/pdf" 6
        none none (some ("0")) [1] [2] []).2 0 "t1" none (some [1])
      (some (store initState 0 "t1" [5] "a.bin" "application/pdf" 6
        none none (some ("0")) [1] [2] []).1.authTag)).result = .ok [5] ∧
    (retrieve (store initState 0 "t1" [5] "a.bin" "application/pdf" 6
        none none (some ("0")) [1] [2] []).2 0 "t1" none (some [1])
      (some (store initState 0 "t1" [5] "a.bin" "application/pdf" 6
        none none (some ("0")) [1] [2] []).1.authTag)).state.transfers.map
      (fun u => (u.download_count, u.max_downloads)) = [(1, some 0)] :=
  ⟨by decide, by decide⟩

def c3T : Transfer :=
  { id := "t1", filename := "t1.enc", original_filename := "a.bin"
    original_size := 4, compressed_size := 2, compression_ratio := 50
    encryption_iv := [0], encryption_salt := [], password_hash := none
    mime_type := "application/pdf", expires_at := none
    max_downloads := some 2, checksum := 7, created_at := 0
    download_count := 2, status := Status.active }

def c3St : ServerState :=
  ⟨[c3T], [], []⟩

/-- Witness for C3: a transfer at its nonzero ceiling (2 of 2) satisfies
the invariant and is rejected with `QuotaExhausted` by both reads. -/
theorem C3_quota_invariant_nonzero_witness :
    QuotaInv c3St ∧
    (retrieve c3St 0 "t1" none none none).result = .error .quotaExhausted ∧
    (getMetadata c3St 0 "t1").1 = .error .quotaExhausted := by
  have hInv : QuotaInv c3St := by
    intro t ht m hm h0
    rw [List.mem_singleton.mp ht] at hm ⊢
    have hm2 : (2 : Nat) = m := by simpa [c3T] using hm
    show c3T.download_count ≤ m
    simp [c3T]
    omega
  refine ⟨hInv, ?_⟩
  exact (C3_quota_invariant_nonzero c3St 0 "t1" none none none ("x") [] ("f")
    "m" 6 none none none [] [] [] hInv).2.2.2.2 c3T 2 rfl rfl rfl rfl
    (by norm_num) (by norm_num [c3T])

/-! ### C6: order-independent chunk reassembly -/

/-- Removing the key `i` does not change lookups for other keys. -/
theorem find?_filter_ne (cs : ChunkStore) (i j : Nat) (hne : j ≠ i) :
    (cs.filter (fun p => p.1 ≠ i)).find? (fun p => p.1 == j)
      = cs.find? (fun p => p.1 == j) := by
  rw [List.find?_filter]
  congr 1
  funext a
  by_cases haj : a.1 = j
  · have hai : a.1 ≠ i := by omega
    simp [haj, hai, hne]
  · simp [haj]

/-- Saving a chunk overwrites its own index and nothing else. -/
theorem chunkLookup_saveChunk (cs : ChunkStore) (i j : Nat) (b : Bytes) :
    chunkLookup (saveChunk cs i b) j
      = if j = i then some b else chunkLookup cs j := by
  unfold chunkLookup saveChunk
  by_cases hji : j = i
  · simp [List.find?_cons, hji]
  · have hij : (i == j) = false := by
      simp
      omega
    simp only [List.find?_cons, hij, cond_false]
    rw [find?_filter_ne cs i j hji, if_neg hji]

theorem chunkLookup_foldl_not_mem (l : List (Nat × Bytes)) (i : Nat) :
    ∀ cs0 : ChunkStore, i ∉ l.map Prod.fst →
      chunkLookup (l.foldl (fun cs p => saveChunk cs p.1 p.2) cs0) i
        = chunkLookup cs0 i := by
  induction l with
  | nil => intro cs0 _; rfl
  | cons a rest ih =>
    intro cs0 hni
    simp only [List.map_cons, List.mem_cons] at hni
    push_neg at hni
    rw [List.foldl_cons, ih (saveChunk cs0 a.1 a.2) hni.2,
      chunkLookup_saveChunk, if_neg hni.1]

/-- With distinct indices, the assembled directory maps each received
index to its bytes, regardless of arrival order. -/
theorem chunkLookup_acceptChunks (l : List (Nat × Bytes)) (i : Nat)
    (b : Bytes) :
    ∀ cs0 : ChunkStore, (l.map Prod.fst).Nodup → (i, b) ∈ l →
      chunkLookup (l.foldl (fun cs p => saveChunk cs p.1 p.2) cs0) i
        = some b := by
  induction l with
  | nil => intro cs0 _ hmem; simp at hmem
  | cons a rest ih =>
    intro cs0 hnd hmem
    simp only [List.map_cons, List.nodup_cons] at hnd
    rw [List.foldl_cons]
    rcases List.mem_cons.mp hmem with rfl | hmem'
    · rw [chunkLookup_foldl_not_mem rest i (saveChunk cs0 i b) hnd.1,
        chunkLookup_saveChunk, if_pos rfl]
    · exact ih (saveChunk cs0 a.1 a.2) hnd.2 hmem'

/-- The completion check `chunks.length === totalChunks` counts one file
per distinct index. -/
theorem length_acceptChunks (l : List (Nat × Bytes)) :
    ∀ cs0 : ChunkStore, (l.map Prod.fst).Nodup →
      (∀ p ∈ l, p.1 ∉ cs0.map Prod.fst) →
      (l.foldl (fun cs p => saveChunk cs p.1 p.2) cs0).length
        = cs0.length + l.length := by
  induction l with
  | nil => intro cs0 _ _; simp
  | cons a rest ih =>
    intro cs0 hnd hdisj
    simp only [List.map_cons, List.nodup_cons] at hnd
    have hfix : cs0.filter (fun p => p.1 ≠ a.1) = cs0 := by
      rw [List.filter_eq_self]
      intro p hp
      have : p.1 ≠ a.1 := by
        intro hcontra
        exact hdisj a (List.mem_cons_self _ _)
          (hcontra ▸ List.mem_map_of_mem Prod.fst hp)
      simpa using this
    rw [List.foldl_cons]
    have hdisj' : ∀ p ∈ rest, p.1 ∉ (saveChunk cs0 a.1 a.2).map Prod.fst := by
      intro p hp
      simp only [saveChunk, hfix, List.map_cons, List.mem_cons]
      push_neg
      constructor
      · intro hcontra
        exact hnd.1 (hcontra ▸ List.mem_map_of_mem Prod.fst hp)
      · exact hdisj p (List.mem_cons_of_mem a hp)
    rw [ih (saveChunk cs0 a.1 a.2) hnd.2 hdisj']
    unfold saveChunk
    rw [hfix]
    simp
    omega

/-- The index-order merge loop reproduces the concatenation when every
index below `total` is present. -/
theorem mergeChunks_eq_join (cs : ChunkStore) (n : Nat) (f : Nat → Bytes)
    (hall : ∀ i, i < n → chunkLookup cs i = some (f i)) :
    mergeChunks cs n = some (((List.range n).map f).flatten) := by
  induction n with
  | zero => rfl
  | succ n ih =>
    have ih' := ih (fun i hi => hall i (Nat.lt_succ_of_lt hi))
    unfold mergeChunks at ih' ⊢
    rw [List.range_succ, List.foldl_append, ih', List.foldl_cons,
      List.foldl_nil, Option.some_bind, hall n (Nat.lt_succ_self n)]
    simp [List.flatten_append]

/-- C6: a complete chunk set (each index `0 .. totalChunks-1` received
exactly once, in any arrival order) passes the completion check and
merges to the concatenation of the chunks in ascending index order; the
merged output depends only on the index-to-bytes assignment, so any two
arrival orders — forward, reverse, or random — give byte-identical
output. -/
theorem C6_chunks_merge_in_index_order (n : Nat) (f : Nat → Bytes)
    (l : List (Nat × Bytes))
    (hperm : l.Perm ((List.range n).map (fun i => (i, f i)))) :
    (acceptChunks l).length = n ∧
    mergeChunks (acceptChunks l) n
      = some (((List.range n).map f).flatten) := by
  have hkeys : (l.map Prod.fst).Perm (List.range n) := by
    have := hperm.map Prod.fst
    simpa [List.map_map, Function.comp_def] using this
  have hnd : (l.map Prod.fst).Nodup :=
    hkeys.nodup_iff.mpr (List.nodup_range n)
  constructor
  · unfold acceptChunks
    rw [length_acceptChunks l [] hnd (by simp)]
    simp [hperm.length_eq]
  · refine mergeChunks_eq_join _ n f ?_
    intro i hi
    have hmem : (i, f i) ∈ l := by
      rw [hperm.mem_iff]
      exact List.mem_map_of_mem _ (List.mem_range.mpr hi)
    exact chunkLookup_acceptChunks l i (f i) [] hnd hmem

/-- Witness for C6: the chunks of a three-chunk transfer submitted in
reverse order assemble to the forward-order concatenation. -/
theorem C6_chunks_merge_in_index_order_witness :
    ([(2, [30]), (1, [20]), (0, [10])] : List (Nat × Bytes)).Perm
      ((List.range 3).map (fun i => (i, [10 * i + 10]))) ∧
    (acceptChunks [(2, [30]), (1, [20]), (0, [10])]).length = 3 ∧
    mergeChunks (acceptChunks [(2, [30]), (1, [20]), (0, [10])]) 3
      = some [10, 20, 30] := by
  have hp : ([(2, [30]), (1, [20]), (0, [10])] : List (Nat × Bytes)).Perm
      ((List.range 3).map (fun i => (i, [10 * i + 10]))) := by decide
  have h := C6_chunks_merge_in_index_order 3 (fun i => [10 * i + 10])
    [(2, [30]), (1, [20]), (0, [10])] hp
  exact ⟨hp, h.1, by rw [h.2]; rfl⟩

end SecureTransfer
